import Mathlib

/-!
Verification of the spreadsheet-consolidation pipelines of this repository
(`curvas_prod.py`, `pp.py`, `marco_cronograma.py`, `marco_modulo.py`,
`marco_parede.py`) against their natural-language specification.

Python floats are modelled by exact rationals (`ℚ`); `round(x, 3)` is
modelled by rounding `x * 1000` to the nearest integer.  Every value the
closure corrector manipulates after its first pass is an integer multiple of
`1/1000`, so tie-breaking details of float rounding never arise in the
properties proved here.
-/

set_option autoImplicit false

namespace CurvasProd

/-- Model of Python `abs`. -/
def pyAbs (q : ℚ) : ℚ := if q < 0 then -q else q

/-- Model of Python `round(v, 3)` over exact rationals: round `v * 1000` to
the nearest integer and scale back.  Written with `Rat.floor` so that it
evaluates on concrete inputs; `round3_eq_round` relates it to `round`. -/
def round3 (q : ℚ) : ℚ := (((q * 1000 + 1 / 2).floor : ℤ) : ℚ) / 1000

/-- A rational that is an integer multiple of `1/1000`, i.e. a value already
expressed with 3 decimal places. -/
def Mult3 (q : ℚ) : Prop := ∃ k : ℤ, q = (k : ℚ) / 1000

/-- `curvas_prod.py` line 122: `float(v) if pd.notna(v) else 0.0`. -/
def fillNa (vals : List (Option ℚ)) : List ℚ := vals.map (fun v => v.getD 0)

/-- `curvas_prod.py` line 125: `vals = [round(v, 3) for v in vals]`. -/
def ajustarStage1 (vals : List ℚ) : List ℚ := vals.map round3

/-- `curvas_prod.py` lines 126-131: if the sum differs from 1.000 by more
than 0.0005, rescale by `1.000 / soma` (or by `1.000 / len(vals)` when the
sum is not positive), rounding each rescaled value to 3 decimals. -/
def ajustarStage2 (vals : List ℚ) : List ℚ :=
  let somaAtual := vals.sum
  if pyAbs (somaAtual - 1) > 1 / 2000 then
    let fator : ℚ :=
      if somaAtual > 0 then 1 / somaAtual
      else if vals.length > 0 then 1 / (vals.length : ℚ) else 1
    vals.map (fun v => round3 (v * fator))
  else vals

/-- `curvas_prod.py` line 138: `max(range(len(vals)), key=lambda i: vals[i])`.
Python `max` scans left to right and replaces the current best only on a
strictly greater key, hence it returns the first index attaining the
maximum. -/
def idxMax (vals : List ℚ) : ℕ :=
  (List.range vals.length).foldl
    (fun best i => if vals.getD i 0 > vals.getD best 0 then i else best) 0

/-- `curvas_prod.py` lines 133-139: push the rounded residual
`diff = round(1.000 - sum(vals), 3)`, when nonzero, onto the element at
`idxMax`. -/
def ajustarStage3 (vals : List ℚ) : List ℚ :=
  let diff := round3 (1 - vals.sum)
  if pyAbs diff > 0 ∧ vals.length > 0 then
    let i := idxMax vals
    vals.set i (round3 (vals.getD i 0 + diff))
  else vals

/-- `curvas_prod.py` lines 141-144: final safety net — if the rounded sum
still deviates from 1.000 by more than 0.001, add the remaining residual to
the first element. -/
def ajustarStage4 (vals : List ℚ) : List ℚ :=
  let somaFinal := round3 vals.sum
  if pyAbs (somaFinal - 1) > 1 / 1000 ∧ vals.length > 0 then
    vals.set 0 (round3 (vals.getD 0 0 + round3 (1 - somaFinal)))
  else vals

/-- `_ajustar_vp_obra_com_3_decimais` restricted to the `VPObra` values of a
single group (`curvas_prod.py` lines 120-147): fill missing values with 0.0,
round, rescale, push the residual to the largest element, then apply the
safety net. -/
def ajustarVpObra (vals : List (Option ℚ)) : List ℚ :=
  ajustarStage4 (ajustarStage3 (ajustarStage2 (ajustarStage1 (fillNa vals))))

/- ### Arithmetic facts about `round3` and `Mult3` -/

theorem ratFloor_eq_floor (q : ℚ) : q.floor = ⌊q⌋ := by
  rw [Rat.floor_def, Rat.floor_def']

theorem round3_eq_round (q : ℚ) :
    round3 q = ((round (q * 1000) : ℤ) : ℚ) / 1000 := by
  rw [round3, ratFloor_eq_floor, round_eq]

theorem pyAbs_pos {q : ℚ} (h : q ≠ 0) : 0 < pyAbs q := by
  by_cases hq : q < 0
  · rw [pyAbs, if_pos hq]
    linarith
  · rw [pyAbs, if_neg hq]
    exact lt_of_le_of_ne (le_of_not_lt hq) (Ne.symm h)

theorem mult3_round3 (q : ℚ) : Mult3 (round3 q) := ⟨(q * 1000 + 1 / 2).floor, rfl⟩

theorem round3_eq_self {q : ℚ} (h : Mult3 q) : round3 q = q := by
  obtain ⟨k, rfl⟩ := h
  have h1 : ((k : ℚ) / 1000) * 1000 = (k : ℚ) := by
    field_simp
  rw [round3_eq_round, h1, round_intCast]

theorem mult3_zero : Mult3 0 := ⟨0, by norm_num⟩

theorem mult3_one : Mult3 1 := ⟨1000, by norm_num⟩

theorem mult3_add {a b : ℚ} (ha : Mult3 a) (hb : Mult3 b) : Mult3 (a + b) := by
  obtain ⟨k, rfl⟩ := ha
  obtain ⟨m, rfl⟩ := hb
  exact ⟨k + m, by push_cast; ring⟩

theorem mult3_sub {a b : ℚ} (ha : Mult3 a) (hb : Mult3 b) : Mult3 (a - b) := by
  obtain ⟨k, rfl⟩ := ha
  obtain ⟨m, rfl⟩ := hb
  exact ⟨k - m, by push_cast; ring⟩

theorem mult3_sum {l : List ℚ} (h : ∀ x ∈ l, Mult3 x) : Mult3 l.sum := by
  induction l with
  | nil => simpa using mult3_zero
  | cons a t ih =>
    rw [List.sum_cons]
    exact mult3_add (h a (List.mem_cons_self a t))
      (ih (fun x hx => h x (List.mem_cons_of_mem a hx)))

/- ### Analysis of `idxMax` (Python `max(range(len(vals)), key=...)`) -/

/-- The fold underlying `idxMax`, abstracted over the list of candidate
indices. -/
def idxMaxFold (l : List ℚ) (b : ℕ) (is : List ℕ) : ℕ :=
  is.foldl (fun best i => if l.getD i 0 > l.getD best 0 then i else best) b

theorem idxMax_eq_fold (l : List ℚ) :
    idxMax l = idxMaxFold l 0 (List.range l.length) := rfl

theorem idxMaxFold_cons (l : List ℚ) (b i : ℕ) (is : List ℕ) :
    idxMaxFold l b (i :: is) =
      idxMaxFold l (if l.getD i 0 > l.getD b 0 then i else b) is := rfl

theorem idxMaxFold_spec (l : List ℚ) :
    ∀ (m s b : ℕ), b < s →
      (∀ j, j < s → l.getD j 0 ≤ l.getD b 0) →
      (∀ j, j < b → l.getD j 0 < l.getD b 0) →
      idxMaxFold l b (List.range' s m) < s + m ∧
      (∀ j, j < s + m → l.getD j 0 ≤ l.getD (idxMaxFold l b (List.range' s m)) 0) ∧
      (∀ j, j < idxMaxFold l b (List.range' s m) →
        l.getD j 0 < l.getD (idxMaxFold l b (List.range' s m)) 0) := by
  intro m
  induction m with
  | zero =>
    intro s b hb hmax hfirst
    simp only [List.range', idxMaxFold, List.foldl_nil]
    exact ⟨by omega, fun j hj => hmax j (by omega), hfirst⟩
  | succ m ih =>
    intro s b hb hmax hfirst
    rw [List.range'_succ, idxMaxFold_cons]
    by_cases h : l.getD s 0 > l.getD b 0
    · rw [if_pos h]
      have hres := ih (s + 1) s (by omega)
        (fun j hj => by
          rcases Nat.lt_succ_iff_lt_or_eq.mp hj with hj' | rfl
          · exact le_of_lt (lt_of_le_of_lt (hmax j hj') h)
          · exact le_refl _)
        (fun j hj => lt_of_le_of_lt (hmax j hj) h)
      refine ⟨by omega, fun j hj => hres.2.1 j (by omega), hres.2.2⟩
    · rw [if_neg h]
      have hres := ih (s + 1) b (by omega)
        (fun j hj => by
          rcases Nat.lt_succ_iff_lt_or_eq.mp hj with hj' | rfl
          · exact hmax j hj'
          · exact le_of_not_lt h)
        hfirst
      refine ⟨by omega, fun j hj => hres.2.1 j (by omega), hres.2.2⟩

theorem idxMax_spec (l : List ℚ) (hl : 0 < l.length) :
    idxMax l < l.length ∧
    (∀ j, j < l.length → l.getD j 0 ≤ l.getD (idxMax l) 0) ∧
    (∀ j, j < idxMax l → l.getD j 0 < l.getD (idxMax l) 0) := by
  obtain ⟨m, hm⟩ : ∃ m, l.length = m + 1 := ⟨l.length - 1, by omega⟩
  rw [idxMax_eq_fold, List.range_eq_range', hm, List.range'_succ, idxMaxFold_cons]
  have h0 : (if l.getD 0 0 > l.getD 0 0 then 0 else 0) = 0 :=
    if_neg (lt_irrefl _)
  rw [h0]
  have hres := idxMaxFold_spec l m (0 + 1) 0 (by omega)
    (fun j hj => by
      have hj0 : j = 0 := by omega
      subst hj0
      exact le_refl _)
    (fun j hj => by omega)
  exact ⟨by omega, fun j hj => hres.2.1 j (by omega), hres.2.2⟩

/- ### Sum of a list after `set` -/

theorem sum_set_getD :
    ∀ (l : List ℚ) (i : ℕ) (b : ℚ), i < l.length →
      (l.set i b).sum = l.sum - l.getD i 0 + b := by
  intro l
  induction l with
  | nil => intro i b h; simp at h
  | cons a t ih =>
    intro i b h
    cases i with
    | zero =>
      simp only [List.set, List.sum_cons, List.getD_cons_zero]
      ring
    | succ n =>
      simp only [List.set, List.sum_cons, List.getD_cons_succ]
      rw [ih n b (by simpa using h)]
      ring

theorem getD_set_ne (l : List ℚ) (i j : ℕ) (h : j ≠ i) (b : ℚ) :
    (l.set i b).getD j 0 = l.getD j 0 := by
  rw [List.getD_eq_getElem?_getD, List.getD_eq_getElem?_getD,
    List.getElem?_set_ne (Ne.symm h)]

theorem getD_mem (l : List ℚ) (i : ℕ) (h : i < l.length) : l.getD i 0 ∈ l := by
  rw [List.getD_eq_getElem l 0 h]
  exact List.getElem_mem h

/- ### Stage-by-stage facts -/

theorem length_fillNa (vals : List (Option ℚ)) :
    (fillNa vals).length = vals.length := List.length_map _ _

theorem length_stage1 (l : List ℚ) :
    (ajustarStage1 l).length = l.length := List.length_map _ _

theorem length_stage2 (l : List ℚ) :
    (ajustarStage2 l).length = l.length := by
  simp only [ajustarStage2]
  split
  · exact List.length_map _ _
  · rfl

theorem stage1_mult3 (l : List ℚ) : ∀ x ∈ ajustarStage1 l, Mult3 x := by
  intro x hx
  simp only [ajustarStage1, List.mem_map] at hx
  obtain ⟨a, _, rfl⟩ := hx
  exact mult3_round3 a

theorem stage2_mult3 (l : List ℚ) (h : ∀ x ∈ l, Mult3 x) :
    ∀ x ∈ ajustarStage2 l, Mult3 x := by
  intro x hx
  simp only [ajustarStage2] at hx
  split at hx
  · simp only [List.mem_map] at hx
    obtain ⟨a, _, rfl⟩ := hx
    exact mult3_round3 _
  · exact h x hx

theorem stage3_sum_eq_one (l : List ℚ) (hm : ∀ x ∈ l, Mult3 x)
    (hl : 0 < l.length) : (ajustarStage3 l).sum = 1 := by
  have hdiff : Mult3 (1 - l.sum) := mult3_sub mult3_one (mult3_sum hm)
  have hr : round3 (1 - l.sum) = 1 - l.sum := round3_eq_self hdiff
  simp only [ajustarStage3, hr]
  by_cases hd : (1 : ℚ) - l.sum = 0
  · rw [if_neg (by simp [hd, pyAbs])]
    linarith [hd]
  · rw [if_pos ⟨pyAbs_pos hd, hl⟩]
    have hi : idxMax l < l.length := (idxMax_spec l hl).1
    have hgetD : Mult3 (l.getD (idxMax l) 0) := hm _ (getD_mem l _ hi)
    rw [round3_eq_self (mult3_add hgetD hdiff), sum_set_getD l _ _ hi]
    ring

theorem stage3_mult3 (l : List ℚ) (hm : ∀ x ∈ l, Mult3 x) :
    ∀ x ∈ ajustarStage3 l, Mult3 x := by
  intro x hx
  simp only [ajustarStage3] at hx
  split at hx
  · rcases List.mem_or_eq_of_mem_set hx with h | rfl
    · exact hm x h
    · exact mult3_round3 _
  · exact hm x hx

theorem stage4_eq_self_of_sum_one (l : List ℚ) (h : l.sum = 1) :
    ajustarStage4 l = l := by
  have h1 : round3 l.sum = 1 := by rw [h]; exact round3_eq_self mult3_one
  simp only [ajustarStage4, h1]
  rw [if_neg]
  intro hc
  have := hc.1
  norm_num [pyAbs] at this

theorem ajustarVpObra_sum (vals : List (Option ℚ)) (h : 0 < vals.length) :
    (ajustarVpObra vals).sum = 1 := by
  have hm2 : ∀ x ∈ ajustarStage2 (ajustarStage1 (fillNa vals)), Mult3 x :=
    stage2_mult3 _ (stage1_mult3 _)
  have hlen : 0 < (ajustarStage2 (ajustarStage1 (fillNa vals))).length := by
    rw [length_stage2, length_stage1, length_fillNa]
    exact h
  have h3 := stage3_sum_eq_one _ hm2 hlen
  unfold ajustarVpObra
  rw [stage4_eq_self_of_sum_one _ h3]
  exact h3

theorem ajustarVpObra_mult3 (vals : List (Option ℚ)) (h : 0 < vals.length) :
    ∀ x ∈ ajustarVpObra vals, Mult3 x := by
  have hm2 : ∀ x ∈ ajustarStage2 (ajustarStage1 (fillNa vals)), Mult3 x :=
    stage2_mult3 _ (stage1_mult3 _)
  have hlen : 0 < (ajustarStage2 (ajustarStage1 (fillNa vals))).length := by
    rw [length_stage2, length_stage1, length_fillNa]
    exact h
  have h3 := stage3_sum_eq_one _ hm2 hlen
  unfold ajustarVpObra
  rw [stage4_eq_self_of_sum_one _ h3]
  exact stage3_mult3 _ hm2

/- ### Facts about all-zero groups -/

theorem getD_replicate_zero (n i : ℕ) :
    (List.replicate n (0 : ℚ)).getD i 0 = 0 := by
  induction n generalizing i with
  | zero => simp
  | succ m ih =>
    cases i with
    | zero => simp [List.replicate_succ]
    | succ j => simp only [List.replicate_succ, List.getD_cons_succ]; exact ih j

theorem idxMax_replicate_zero (n : ℕ) :
    idxMax (List.replicate n (0 : ℚ)) = 0 := by
  rw [idxMax_eq_fold]
  have h : ∀ is : List ℕ, idxMaxFold (List.replicate n (0 : ℚ)) 0 is = 0 := by
    intro is
    induction is with
    | nil => rfl
    | cons a t ih =>
      rw [idxMaxFold_cons, getD_replicate_zero, getD_replicate_zero,
        if_neg (lt_irrefl 0)]
      exact ih
  exact h _

/- ### Claim theorems -/

/-- Claim C1: for every group of `VPObra` values whose inputs (missing values
replaced by 0.0) are nonnegative with a positive sum, the values produced by
the closure correction `_ajustar_vp_obra_com_3_decimais` sum to 1.000 within
a tolerance of 0.001, each output value being a 3-decimal value, for any
group cardinality from 1 upward. -/
theorem claim_C1_closure_sum (vals : List (Option ℚ))
    (hcard : 1 ≤ vals.length)
    (hnn : ∀ v ∈ vals, 0 ≤ v.getD 0)
    (hpos : 0 < (fillNa vals).sum) :
    |(ajustarVpObra vals).sum - 1| ≤ 1 / 1000 ∧
    ∀ x ∈ ajustarVpObra vals, round3 x = x := by
  have h := ajustarVpObra_sum vals (by omega)
  refine ⟨by rw [h]; norm_num, fun x hx => ?_⟩
  exact round3_eq_self (ajustarVpObra_mult3 vals (by omega) x hx)

theorem claim_C1_witness :
    (1 ≤ ([some (3/10), some (3/10), some (3/10)] : List (Option ℚ)).length ∧
     (∀ v ∈ ([some (3/10), some (3/10), some (3/10)] : List (Option ℚ)), 0 ≤ v.getD 0) ∧
     0 < (fillNa [some (3/10), some (3/10), some (3/10)]).sum) ∧
    (|(ajustarVpObra [some (3/10), some (3/10), some (3/10)]).sum - 1| ≤ 1 / 1000 ∧
     ∀ x ∈ ajustarVpObra [some (3/10), some (3/10), some (3/10)], round3 x = x) :=
  ⟨⟨by norm_num, by norm_num, by norm_num [fillNa]⟩,
    claim_C1_closure_sum [some (3/10), some (3/10), some (3/10)]
      (by norm_num) (by norm_num) (by norm_num [fillNa])⟩

/-- Claim C2 counterexample: on the all-zero group `[0.0, 0.0]` (cardinality
2, zero input sum) the closure correction outputs `[1.0, 0.0]`, not the equal
split `[0.5, 0.5]` claimed by the spec. -/
theorem claim_C2_counterexample :
    ajustarVpObra [some 0, some 0] = [1, 0] ∧
    ajustarVpObra [some 0, some 0] ≠ [1/2, 1/2] := by
  constructor <;>
    norm_num [ajustarVpObra, ajustarStage1, ajustarStage2, ajustarStage3,
      ajustarStage4, fillNa, idxMax, pyAbs, round3, ratFloor_eq_floor,
      List.range_succ]

/-- Claim C2 (amended): for every group whose `VPObra` values — missing
values replaced by 0.0 — are all zero (cardinality ≥ 1), the closure
correction gives the entire target 1.000 to the first element and 0.0 to
every other member — not an equal split — and the group output still sums
to 1.000 within 0.001. -/
theorem claim_C2_amended (vals : List (Option ℚ)) (h : 1 ≤ vals.length)
    (hz : ∀ v ∈ vals, v.getD 0 = 0) :
    ajustarVpObra vals = 1 :: List.replicate (vals.length - 1) 0 ∧
    |(ajustarVpObra vals).sum - 1| ≤ 1 / 1000 := by
  obtain ⟨m, hm⟩ : ∃ m, vals.length = m + 1 := ⟨vals.length - 1, by omega⟩
  have hfill : fillNa vals = List.replicate (m + 1) 0 := by
    have hlen : (fillNa vals).length = m + 1 := by
      rw [length_fillNa, hm]
    have hrep : fillNa vals = List.replicate (fillNa vals).length (0 : ℚ) :=
      List.eq_replicate_of_mem (by
        intro b hb
        simp only [fillNa, List.mem_map] at hb
        obtain ⟨v, hv, rfl⟩ := hb
        exact hz v hv)
    rw [hrep, hlen]
  have hsum0 : (List.replicate (m + 1) (0 : ℚ)).sum = 0 := by simp
  have hs1 : ajustarStage1 (List.replicate (m + 1) (0 : ℚ)) =
      List.replicate (m + 1) 0 := by
    simp [ajustarStage1, List.map_replicate, round3_eq_self mult3_zero]
  have hs2 : ajustarStage2 (List.replicate (m + 1) (0 : ℚ)) =
      List.replicate (m + 1) 0 := by
    simp only [ajustarStage2, hsum0]
    rw [if_pos (by norm_num [pyAbs])]
    simp [List.map_replicate, round3_eq_self mult3_zero]
  have hs3 : ajustarStage3 (List.replicate (m + 1) (0 : ℚ)) =
      1 :: List.replicate m 0 := by
    simp only [ajustarStage3, hsum0, sub_zero, round3_eq_self mult3_one]
    rw [if_pos ⟨by norm_num [pyAbs], by simp⟩, idxMax_replicate_zero,
      getD_replicate_zero, zero_add, round3_eq_self mult3_one,
      List.replicate_succ]
    rfl
  have hs4 : ajustarStage4 (1 :: List.replicate m (0 : ℚ)) =
      1 :: List.replicate m 0 :=
    stage4_eq_self_of_sum_one _ (by simp)
  have hall : ajustarVpObra vals = 1 :: List.replicate m 0 := by
    rw [ajustarVpObra, hfill, hs1, hs2, hs3, hs4]
  rw [hall, hm]
  have hm1 : m + 1 - 1 = m := by omega
  rw [hm1]
  exact ⟨rfl, by simp⟩

theorem claim_C2_amended_witness :
    (1 ≤ ([some 0, none, some 0] : List (Option ℚ)).length ∧
     ∀ v ∈ ([some 0, none, some 0] : List (Option ℚ)), v.getD 0 = 0) ∧
    (ajustarVpObra [some 0, none, some 0] =
      1 :: List.replicate
        (([some 0, none, some 0] : List (Option ℚ)).length - 1) 0 ∧
     |(ajustarVpObra [some 0, none, some 0]).sum - 1| ≤ 1 / 1000) :=
  ⟨⟨by norm_num, by simp⟩,
    claim_C2_amended [some 0, none, some 0] (by norm_num) (by simp)⟩

/-- Claim C3: when the residual `diff = round(1.000 - sum, 3)` after the
rescale stage is nonzero, the entire residual is added to exactly one
element — the element with the current largest value, ties broken by first
occurrence — all other elements keep their post-rescale values, and the
final safety-net condition (sum still deviating from 1.000 by more than
0.001) does not fire. -/
theorem claim_C3_residual_push (vals : List (Option ℚ)) (w : List ℚ) (d : ℚ)
    (hw : w = ajustarStage2 (ajustarStage1 (fillNa vals)))
    (hcard : 1 ≤ vals.length)
    (hdval : d = round3 (1 - w.sum))
    (hd : d ≠ 0) :
    ajustarVpObra vals = w.set (idxMax w) (w.getD (idxMax w) 0 + d) ∧
    idxMax w < w.length ∧
    (∀ j, j < w.length → w.getD j 0 ≤ w.getD (idxMax w) 0) ∧
    (∀ j, j < idxMax w → w.getD j 0 < w.getD (idxMax w) 0) ∧
    (∀ j, j ≠ idxMax w →
      (ajustarVpObra vals).getD j 0 = w.getD j 0) ∧
    ¬ (pyAbs (round3 (ajustarStage3 w).sum - 1) > 1 / 1000) := by
  have hm : ∀ x ∈ w, Mult3 x := by
    rw [hw]; exact stage2_mult3 _ (stage1_mult3 _)
  have hlen : 0 < w.length := by
    rw [hw, length_stage2, length_stage1, length_fillNa]; omega
  have hdm : Mult3 (1 - w.sum) := mult3_sub mult3_one (mult3_sum hm)
  have hd1 : d = 1 - w.sum := by rw [hdval, round3_eq_self hdm]
  have hi : idxMax w < w.length := (idxMax_spec w hlen).1
  have hset : ajustarStage3 w = w.set (idxMax w) (w.getD (idxMax w) 0 + d) := by
    simp only [ajustarStage3, ← hdval]
    rw [if_pos ⟨pyAbs_pos hd, hlen⟩,
      round3_eq_self (mult3_add (hm _ (getD_mem w _ hi)) (by rw [hd1]; exact hdm))]
  have hsum3 : (ajustarStage3 w).sum = 1 := stage3_sum_eq_one w hm hlen
  have hpipe : ajustarVpObra vals = ajustarStage3 w := by
    rw [ajustarVpObra, ← hw, stage4_eq_self_of_sum_one _ hsum3]
  refine ⟨by rw [hpipe, hset], hi, (idxMax_spec w hlen).2.1,
    (idxMax_spec w hlen).2.2, fun j hj => ?_, ?_⟩
  · rw [hpipe, hset, getD_set_ne w _ j hj]
  · rw [hsum3, round3_eq_self mult3_one]
    norm_num [pyAbs]

theorem claim_C3_witness :
    ((1 : ℚ) / 1000 ≠ 0) ∧
    ajustarVpObra [some (3/10), some (3/10), some (3/10)] =
      ([333/1000, 333/1000, 333/1000] : List ℚ).set
        (idxMax [333/1000, 333/1000, 333/1000])
        (([333/1000, 333/1000, 333/1000] : List ℚ).getD
          (idxMax [333/1000, 333/1000, 333/1000]) 0 + 1 / 1000) :=
  ⟨by norm_num,
    (claim_C3_residual_push [some (3/10), some (3/10), some (3/10)]
      [333/1000, 333/1000, 333/1000] (1 / 1000)
      (by norm_num [ajustarStage1, ajustarStage2, fillNa, pyAbs, round3,
        ratFloor_eq_floor])
      (by norm_num)
      (by norm_num [round3, ratFloor_eq_floor])
      (by norm_num)).1⟩

/- ### Locale numeric parser (`_parse_number_br`, `_parse_number_br_pct`) -/

/-- Whitespace characters removed by Python `str.strip`. -/
def isPySpace (c : Char) : Bool :=
  c == ' ' || c == '\t' || c == '\n' || c == '\r' || c == '\x0b' || c == '\x0c'

/-- Left part of Python `str.strip`. -/
def trimLeft (l : List Char) : List Char := l.dropWhile isPySpace

/-- Right part of Python `str.strip`. -/
def trimRight (l : List Char) : List Char :=
  (l.reverse.dropWhile isPySpace).reverse

/-- Python `str.strip` on a character list. -/
def pyStrip (l : List Char) : List Char := trimRight (trimLeft l)

/-- The character class kept by `re.sub(r"[^0-9,.\-]", "", s)`. -/
def keepNumChar (c : Char) : Bool :=
  c.isDigit || c == ',' || c == '.' || c == '-'

/-- Python `str.rfind` for a single character: index of the last occurrence,
`-1` when absent. -/
def rfindChar (s : List Char) (c : Char) : Int :=
  (List.range s.length).foldl
    (fun acc i => if s.getD i ' ' = c then (i : Int) else acc) (-1)

/-- Python `s.rsplit(c, 1)`: split at the last occurrence of `c`; the second
component is `none` when `c` does not occur (a one-element split). -/
def rsplitLast (s : List Char) (c : Char) : List Char × Option (List Char) :=
  let i := rfindChar s c
  if i < 0 then (s, none)
  else (s.take i.toNat, some (s.drop (i.toNat + 1)))

/-- Numeric value of a digit run. -/
def digitsToNat (l : List Char) : ℕ :=
  l.foldl (fun acc c => 10 * acc + (c.toNat - 48)) 0

/-- Python `float` on a sign-free string made of digits and at most one
period: `digits`, `digits.digits`, `digits.` or `.digits` (at least one
digit); anything else raises, modelled as `none`. -/
def pyFloatPos (s : List Char) : Option ℚ :=
  let ip := s.takeWhile (fun c => c ≠ '.')
  let rest := s.dropWhile (fun c => c ≠ '.')
  if rest = [] then
    if s ≠ [] ∧ s.all Char.isDigit then some ((digitsToNat s : ℕ) : ℚ)
    else none
  else
    let fp := rest.tail
    if ip.all Char.isDigit ∧ fp.all Char.isDigit ∧ (ip ≠ [] ∨ fp ≠ []) then
      some ((digitsToNat ip : ℚ) + (digitsToNat fp : ℚ) / (10 : ℚ) ^ fp.length)
    else none

/-- Python `float` on a string made of digits, `-` and `.` (the only
characters reaching the `float` calls of `_parse_number_br`): an optional
leading minus followed by a `pyFloatPos` body. -/
def pyFloat (s : List Char) : Option ℚ :=
  if s.head? = some '-' then (pyFloatPos s.tail).map (fun q => -q)
  else pyFloatPos s

/-- `_parse_number_br` (`curvas_prod.py` lines 30-57) on a text value:
strip; empty → missing; drop every character outside `[0-9,.\-]`; a bare
separator → missing; with no separator parse directly; otherwise the
rightmost separator (comma when its last index is larger, else period) is
the decimal point, all other separator occurrences are discarded, and the
reassembled `int.frac` string is parsed, any failure giving missing. -/
def parseNumberBr (s0 : List Char) : Option ℚ :=
  let s1 := pyStrip s0
  if s1 = [] then none
  else
    let s := s1.filter keepNumChar
    if s = [] ∨ s = ['-'] ∨ s = [','] ∨ s = ['.'] then none
    else
      let lastComma := rfindChar s ','
      let lastDot := rfindChar s '.'
      if lastComma = -1 ∧ lastDot = -1 then pyFloat s
      else
        let dec := if lastComma > lastDot then ',' else '.'
        let parts := rsplitLast s dec
        let intPart := parts.1.filter (fun c => c.isDigit || c == '-')
        let fracPart := (parts.2.getD []).filter Char.isDigit
        pyFloat (intPart ++ (if fracPart ≠ [] then '.' :: fracPart else []))

/-- `_parse_number_br_pct` (`curvas_prod.py` lines 60-69): strip, detect a
literal `%`, parse with `_parse_number_br`, keep the missing marker, and
divide by 100 only when the `%` was present. -/
def parseNumberBrPct (s0 : List Char) : Option ℚ :=
  let s := pyStrip s0
  (parseNumberBr s).map (fun v => if '%' ∈ s then v / 100 else v)

/- ### `pyStrip` is idempotent -/

theorem dropWhile_head_false {p : Char → Bool} {l : List Char} {a : Char}
    {t : List Char} (h : l.dropWhile p = a :: t) : p a = false := by
  induction l with
  | nil => simp at h
  | cons b u ih =>
    rw [List.dropWhile_cons] at h
    by_cases hb : p b
    · rw [if_pos hb] at h
      exact ih h
    · rw [if_neg hb] at h
      cases h
      exact Bool.eq_false_iff.mpr hb

theorem dropWhile_idem (p : Char → Bool) (l : List Char) :
    (l.dropWhile p).dropWhile p = l.dropWhile p := by
  cases h : l.dropWhile p with
  | nil => rfl
  | cons a t =>
    rw [List.dropWhile_cons, if_neg]
    rw [dropWhile_head_false h]
    simp

theorem trimRight_idem (l : List Char) :
    trimRight (trimRight l) = trimRight l := by
  unfold trimRight
  rw [List.reverse_reverse, dropWhile_idem]

theorem trimRight_prefixOf (l : List Char) : trimRight l <+: l := by
  have h : l.reverse.dropWhile isPySpace <:+ l.reverse :=
    List.dropWhile_suffix _
  have h2 := List.reverse_prefix.mpr h
  rwa [List.reverse_reverse] at h2

theorem trimLeft_trimRight_trimLeft (l : List Char) :
    trimLeft (trimRight (trimLeft l)) = trimRight (trimLeft l) := by
  cases h : trimRight (trimLeft l) with
  | nil => simp [trimLeft]
  | cons a t =>
    have hpre : a :: t <+: trimLeft l := by
      rw [← h]; exact trimRight_prefixOf _
    obtain ⟨r, hr⟩ := hpre
    have hfalse : isPySpace a = false := by
      apply dropWhile_head_false (p := isPySpace) (l := l)
      rw [show l.dropWhile isPySpace = trimLeft l from rfl, ← hr]
      rfl
    rw [trimLeft, List.dropWhile_cons, hfalse]
    simp

theorem pyStrip_idem (l : List Char) : pyStrip (pyStrip l) = pyStrip l := by
  unfold pyStrip
  rw [trimLeft_trimRight_trimLeft, trimRight_idem]

theorem pyStrip_subset (l : List Char) : ∀ a ∈ pyStrip l, a ∈ l := by
  intro a ha
  have h1 : a ∈ trimLeft l := (trimRight_prefixOf (trimLeft l)).subset ha
  exact (List.dropWhile_suffix isPySpace).subset h1

theorem parseNumberBr_pyStrip (s : List Char) :
    parseNumberBr (pyStrip s) = parseNumberBr s := by
  simp only [parseNumberBr, pyStrip_idem]

theorem aux_pyFloat_123456 :
    pyFloat ['1', '2', '3', '4', '.', '5', '6'] = some (123456 / 100) := by
  rw [pyFloat, if_neg (by decide)]
  simp only [pyFloatPos]
  rw [show (['1', '2', '3', '4', '.', '5', '6'].takeWhile (fun c => c ≠ '.')) =
        ['1', '2', '3', '4'] from by decide,
    show (['1', '2', '3', '4', '.', '5', '6'].dropWhile (fun c => c ≠ '.')) =
      ['.', '5', '6'] from by decide]
  rw [if_neg (by decide), if_pos (by decide)]
  rw [show digitsToNat ['1', '2', '3', '4'] = 1234 from by decide,
    show digitsToNat (['.', '5', '6'] : List Char).tail = 56 from by decide,
    show ((['.', '5', '6'] : List Char).tail).length = 2 from rfl]
  norm_num

/-- Claim C4: the locale numeric parser treats the rightmost comma or period
as the decimal separator and discards the other occurrences, so that
`"1.234,56"` and `"1,234.56"` both parse to `1234.56`, `"-"` and `""` are
missing, the percentage variant maps `"12%"` to `0.12`, and on any input
without `%` the percentage variant returns the plain parsed value. -/
theorem claim_C4_parse_examples :
    parseNumberBr ['1', '.', '2', '3', '4', ',', '5', '6'] = some (123456 / 100) ∧
    parseNumberBr ['1', ',', '2', '3', '4', '.', '5', '6'] = some (123456 / 100) ∧
    parseNumberBr ['-'] = none ∧
    parseNumberBr [] = none ∧
    parseNumberBrPct ['1', '2', '%'] = some (12 / 100) ∧
    ∀ s : List Char, '%' ∉ s → parseNumberBrPct s = parseNumberBr s := by
  refine ⟨?_, ?_, ?_, ?_, ?_, ?_⟩
  · simp only [parseNumberBr]
    rw [show pyStrip ['1', '.', '2', '3', '4', ',', '5', '6'] =
        ['1', '.', '2', '3', '4', ',', '5', '6'] from by decide]
    rw [if_neg (by decide)]
    rw [show List.filter keepNumChar ['1', '.', '2', '3', '4', ',', '5', '6'] =
        ['1', '.', '2', '3', '4', ',', '5', '6'] from by decide]
    rw [if_neg (by decide)]
    rw [show rfindChar ['1', '.', '2', '3', '4', ',', '5', '6'] ',' = 5 from by decide]
    rw [show rfindChar ['1', '.', '2', '3', '4', ',', '5', '6'] '.' = 1 from by decide]
    rw [if_neg (by decide), if_pos (by decide)]
    rw [show rsplitLast ['1', '.', '2', '3', '4', ',', '5', '6'] ',' =
        (['1', '.', '2', '3', '4'], some ['5', '6']) from by decide]
    rw [show List.filter (fun c => c.isDigit || c == '-')
        ((['1', '.', '2', '3', '4'] : List Char), some (['5', '6'] : List Char)).1 =
        ['1', '2', '3', '4'] from by decide]
    rw [show List.filter Char.isDigit
        (((['1', '.', '2', '3', '4'] : List Char), some (['5', '6'] : List Char)).2.getD []) =
        ['5', '6'] from by decide]
    rw [if_pos (by decide)]
    rw [show (['1', '2', '3', '4'] : List Char) ++ '.' :: ['5', '6'] =
        ['1', '2', '3', '4', '.', '5', '6'] from rfl]
    exact aux_pyFloat_123456
  · simp only [parseNumberBr]
    rw [show pyStrip ['1', ',', '2', '3', '4', '.', '5', '6'] =
        ['1', ',', '2', '3', '4', '.', '5', '6'] from by decide]
    rw [if_neg (by decide)]
    rw [show List.filter keepNumChar ['1', ',', '2', '3', '4', '.', '5', '6'] =
        ['1', ',', '2', '3', '4', '.', '5', '6'] from by decide]
    rw [if_neg (by decide)]
    rw [show rfindChar ['1', ',', '2', '3', '4', '.', '5', '6'] ',' = 1 from by decide]
    rw [show rfindChar ['1', ',', '2', '3', '4', '.', '5', '6'] '.' = 5 from by decide]
    rw [if_neg (by decide), if_neg (by decide)]
    rw [show rsplitLast ['1', ',', '2', '3', '4', '.', '5', '6'] '.' =
        (['1', ',', '2', '3', '4'], some ['5', '6']) from by decide]
    rw [show List.filter (fun c => c.isDigit || c == '-')
        ((['1', ',', '2', '3', '4'] : List Char), some (['5', '6'] : List Char)).1 =
        ['1', '2', '3', '4'] from by decide]
    rw [show List.filter Char.isDigit
        (((['1', ',', '2', '3', '4'] : List Char), some (['5', '6'] : List Char)).2.getD []) =
        ['5', '6'] from by decide]
    rw [if_pos (by decide)]
    rw [show (['1', '2', '3', '4'] : List Char) ++ '.' :: ['5', '6'] =
        ['1', '2', '3', '4', '.', '5', '6'] from rfl]
    exact aux_pyFloat_123456
  · simp only [parseNumberBr]
    rw [show pyStrip ['-'] = ['-'] from by decide]
    rw [if_neg (by decide)]
    rw [show List.filter keepNumChar ['-'] = ['-'] from by decide]
    rw [if_pos (by decide)]
  · simp only [parseNumberBr]
    rw [show pyStrip [] = [] from by decide, if_pos rfl]
  · simp only [parseNumberBrPct]
    rw [show pyStrip ['1', '2', '%'] = ['1', '2', '%'] from by decide]
    have hp : parseNumberBr ['1', '2', '%'] = some 12 := by
      simp only [parseNumberBr]
      rw [show pyStrip ['1', '2', '%'] = ['1', '2', '%'] from by decide,
        if_neg (by decide)]
      rw [show List.filter keepNumChar ['1', '2', '%'] = ['1', '2'] from by decide]
      rw [if_neg (by decide)]
      rw [show rfindChar ['1', '2'] ',' = -1 from by decide,
        show rfindChar ['1', '2'] '.' = -1 from by decide]
      rw [if_pos (by decide)]
      rw [pyFloat, if_neg (by decide)]
      simp only [pyFloatPos]
      rw [show (['1', '2'].takeWhile (fun c => c ≠ '.')) = ['1', '2'] from by decide,
        show (['1', '2'].dropWhile (fun c => c ≠ '.')) = [] from by decide]
      rw [if_pos rfl, if_pos (by decide)]
      rw [show digitsToNat ['1', '2'] = 12 from by decide]
      norm_num
    rw [hp, Option.map_some', if_pos (by decide)]
  · intro s hs
    have hmem : ¬ '%' ∈ pyStrip s := fun h => hs (pyStrip_subset s '%' h)
    simp only [parseNumberBrPct]
    rw [parseNumberBr_pyStrip]
    cases hv : parseNumberBr s with
    | none => rfl
    | some v => rw [Option.map_some', if_neg hmem]

theorem claim_C4_witness :
    ('%' ∉ ['1', ',', '5']) ∧
    parseNumberBrPct ['1', ',', '5'] = parseNumberBr ['1', ',', '5'] :=
  ⟨by decide, claim_C4_parse_examples.2.2.2.2.2 ['1', ',', '5'] (by decide)⟩

/- ### Header normalization and required-column check (`_padronizar_colunas`,
`_tratar_curva`) -/

/-- `CURVE_REQUIRED_COLS` (`curvas_prod.py` lines 14-25). -/
def CURVE_REQUIRED_COLS : List String :=
  ["IdEmpreendimento", "IdModulo", "DataReferencia", "VPCurva", "PesoModulo",
   "Unidades", "VPModulo", "VPObra", "Obra", "SimulacaoId"]

/-- A sheet as the schema-level model needs it: its column headers and its
rows of untyped cells. -/
structure Tabela where
  header : List String
  rows : List (List String)

/-- Python `str.strip` on a `String`. -/
def pyStripStr (s : String) : String := String.mk (pyStrip s.data)

/-- `_padronizar_colunas` (`curvas_prod.py` lines 85-86): rename every
column to its stripped form — nothing but whitespace stripping happens. -/
def padronizarColunas (t : Tabela) : Tabela :=
  ⟨t.header.map pyStripStr, t.rows⟩

/-- The `faltantes` list of `_tratar_curva` (`curvas_prod.py` line 174). -/
def faltantes (cols : List String) : List String :=
  CURVE_REQUIRED_COLS.filter (fun c => !(cols.contains c))

/-- `_tratar_curva` (`curvas_prod.py` lines 169-201) at the schema level:
standardize columns, and when required columns are missing return an empty
table plus one warning carrying the source name and the missing list (the
Python code formats these into one message string).  The rest of the
treatment (column selection, numeric parsing, the closure adjustment and
decimal limiting, lines 179-199) is abstracted as `process`; the claims
proved here hold for every `process`. -/
def tratarCurva (process : Tabela → Tabela) (t : Tabela) (fonte : String) :
    Tabela × List (String × List String) :=
  let t1 := padronizarColunas t
  let falt := faltantes t1.header
  if falt ≠ [] then (⟨CURVE_REQUIRED_COLS, []⟩, [(fonte, falt)])
  else (process t1, [])

/-- Claim C5 counterexample: the raw header `" idempreendimento "` (lower
case, padded) is not mapped to the canonical `IdEmpreendimento` — header
comparison only strips whitespace and is case-sensitive — so the required
column is reported missing even though every other column matches. -/
theorem claim_C5_counterexample :
    faltantes (([" idempreendimento ", "IdModulo", "DataReferencia",
      "VPCurva", "PesoModulo", "Unidades", "VPModulo", "VPObra", "Obra",
      "SimulacaoId"].map pyStripStr)) = ["IdEmpreendimento"] := by
  decide

/-- Claim C5 (amended): header normalization strips leading and trailing
whitespace only and compares case- and accent-sensitively; the padded
exact-case header `" IdEmpreendimento "` does map to the canonical column,
and whenever any required canonical column is still absent after stripping,
the source yields the missing-column list plus a warning and contributes no
rows — never a partial table. -/
theorem claim_C5_amended :
    (∀ (process : Tabela → Tabela) (t : Tabela) (fonte : String),
      faltantes (padronizarColunas t).header ≠ [] →
      (tratarCurva process t fonte).1.rows = [] ∧
      (tratarCurva process t fonte).2 =
        [(fonte, faltantes (padronizarColunas t).header)]) ∧
    faltantes (([" IdEmpreendimento ", "IdModulo", "DataReferencia",
      "VPCurva", "PesoModulo", "Unidades", "VPModulo", "VPObra", "Obra",
      "SimulacaoId"].map pyStripStr)) = [] := by
  constructor
  · intro process t fonte hf
    simp only [tratarCurva]
    rw [if_pos hf]
    exact ⟨rfl, rfl⟩
  · decide

theorem claim_C5_amended_witness :
    (faltantes (padronizarColunas ⟨[" idempreendimento "], [["x"]]⟩).header ≠ []) ∧
    ((tratarCurva id ⟨[" idempreendimento "], [["x"]]⟩ "fonteA").1.rows = [] ∧
     (tratarCurva id ⟨[" idempreendimento "], [["x"]]⟩ "fonteA").2 =
       [("fonteA", faltantes (padronizarColunas ⟨[" idempreendimento "], [["x"]]⟩).header)]) :=
  ⟨by decide,
    claim_C5_amended.1 id ⟨[" idempreendimento "], [["x"]]⟩ "fonteA" (by decide)⟩

end CurvasProd

namespace MarcoCrono

/-!
Model of `_calculate_work_duration` (`marco_cronograma.py` lines 65-87; the
copy in `marco_modulo.py` lines 53-71 computes the same function), for the
rows of one `Obra` group.  Dates are calendar dates ordered
lexicographically by year, month and day, matching chronological comparison
of the timestamps pandas builds from them.
-/

/-- A calendar date. -/
structure CalDate where
  year : Int
  month : Int
  day : Int
deriving DecidableEq

/-- Chronological order of calendar dates. -/
def CalDate.le (a b : CalDate) : Prop :=
  a.year < b.year ∨ (a.year = b.year ∧
    (a.month < b.month ∨ (a.month = b.month ∧ a.day ≤ b.day)))

instance (a b : CalDate) : Decidable (a.le b) := by
  unfold CalDate.le
  exact inferInstance

theorem CalDate.le_refl (a : CalDate) : a.le a := by
  unfold CalDate.le
  omega

theorem CalDate.le_total (a b : CalDate) : a.le b ∨ b.le a := by
  unfold CalDate.le
  omega

theorem CalDate.le_trans {a b c : CalDate} (h1 : a.le b) (h2 : b.le c) :
    a.le c := by
  unfold CalDate.le at h1 h2 ⊢
  omega

/-- One schedule row of a group: task name, parsed start date, parsed end
date (`none` models `NaT`, a missing or unparseable date). -/
structure LinhaCrono where
  nome : String
  inicio : Option CalDate
  termino : Option CalDate

/-- Case folding used for the case-insensitive keyword match of
`str.contains(..., case=False)`: ASCII letters plus the accented uppercase
letters occurring in the milestone keywords. -/
def toLowerBr (c : Char) : Char :=
  if 'A' ≤ c ∧ c ≤ 'Z' then Char.ofNat (c.toNat + 32)
  else if c = 'Ç' then 'ç'
  else if c = 'Ã' then 'ã'
  else if c = 'Í' then 'í'
  else if c = 'É' then 'é'
  else if c = 'Ó' then 'ó'
  else c

/-- `series.str.contains(keyword, case=False, na=False)` for the literal
(regex-metacharacter-free) keywords used here: case-insensitive substring
containment. -/
def containsCI (keyword nome : List Char) : Bool :=
  decide ((keyword.map toLowerBr) <:+: (nome.map toLowerBr))

/-- `min` of two dates. -/
def minD (a b : CalDate) : CalDate := if a.le b then a else b

/-- `max` of two dates. -/
def maxD (a b : CalDate) : CalDate := if b.le a then a else b

/-- pandas `Series.min` over the non-missing dates: `none` on an empty
candidate set. -/
def listMin (l : List CalDate) : Option CalDate :=
  match l with
  | [] => none
  | x :: xs => some (xs.foldl minD x)

/-- pandas `Series.max` over the non-missing dates. -/
def listMax (l : List CalDate) : Option CalDate :=
  match l with
  | [] => none
  | x :: xs => some (xs.foldl maxD x)

/-- The start dates of the rows matching the start-milestone keyword
(`marco_cronograma.py` line 76). -/
def startCandidates (rows : List LinhaCrono) : List CalDate :=
  (rows.filter (fun r => containsCI ("Fundação".data) r.nome.data)).filterMap
    (fun r => r.inicio)

/-- The end dates of the rows matching the end-milestone keyword
(`marco_cronograma.py` line 77). -/
def endCandidates (rows : List LinhaCrono) : List CalDate :=
  (rows.filter (fun r => containsCI ("Fim Físico".data) r.nome.data)).filterMap
    (fun r => r.termino)

/-- `fundacao` of `_calculate_work_duration`. -/
def minStart (rows : List LinhaCrono) : Option CalDate :=
  listMin (startCandidates rows)

/-- `fim_fisico` of `_calculate_work_duration`. -/
def maxEnd (rows : List LinhaCrono) : Option CalDate :=
  listMax (endCandidates rows)

/-- `_calculate_work_duration` for one group: month difference, minus one
when the end day-of-month is smaller than the start day-of-month, floored at
zero; `None` when either milestone is absent. -/
def calculateWorkDuration (rows : List LinhaCrono) : Option Int :=
  match minStart rows, maxEnd rows with
  | some f, some t =>
    let d1 := (t.year - f.year) * 12 + (t.month - f.month)
    let d2 := if t.day < f.day then d1 - 1 else d1
    some (max 0 d2)
  | _, _ => none

/- ### Fold-min and fold-max facts -/

theorem minD_le_left (a b : CalDate) : (minD a b).le a := by
  unfold minD
  split
  · exact CalDate.le_refl a
  · rcases CalDate.le_total a b with h | h
    · contradiction
    · exact h

theorem minD_le_right (a b : CalDate) : (minD a b).le b := by
  unfold minD
  split
  · assumption
  · exact CalDate.le_refl b

theorem maxD_ge_left (a b : CalDate) : a.le (maxD a b) := by
  unfold maxD
  split
  · exact CalDate.le_refl a
  · rcases CalDate.le_total b a with h | h
    · contradiction
    · exact h

theorem maxD_ge_right (a b : CalDate) : b.le (maxD a b) := by
  unfold maxD
  split
  · assumption
  · exact CalDate.le_refl b

theorem minD_cases (a b : CalDate) : minD a b = a ∨ minD a b = b := by
  unfold minD
  split
  · exact Or.inl rfl
  · exact Or.inr rfl

theorem maxD_cases (a b : CalDate) : maxD a b = a ∨ maxD a b = b := by
  unfold maxD
  split
  · exact Or.inl rfl
  · exact Or.inr rfl

theorem foldl_minD_mem :
    ∀ (xs : List CalDate) (x : CalDate), xs.foldl minD x ∈ x :: xs := by
  intro xs
  induction xs with
  | nil => intro x; simp
  | cons a t ih =>
    intro x
    rw [List.foldl_cons]
    rcases List.mem_cons.mp (ih (minD x a)) with h1 | h1
    · rw [h1]
      rcases minD_cases x a with h2 | h2 <;> rw [h2] <;> simp
    · exact List.mem_cons_of_mem _ (List.mem_cons_of_mem _ h1)

theorem foldl_minD_le :
    ∀ (xs : List CalDate) (x : CalDate), ∀ y ∈ x :: xs,
      (xs.foldl minD x).le y := by
  intro xs
  induction xs with
  | nil =>
    intro x y hy
    rw [List.mem_singleton] at hy
    subst hy
    exact CalDate.le_refl y
  | cons a t ih =>
    intro x y hy
    rw [List.foldl_cons]
    have hfold_min : (t.foldl minD (minD x a)).le (minD x a) :=
      ih (minD x a) (minD x a) (List.mem_cons_self _ _)
    rcases List.mem_cons.mp hy with rfl | hy'
    · exact CalDate.le_trans hfold_min (minD_le_left y a)
    · rcases List.mem_cons.mp hy' with rfl | hy''
      · exact CalDate.le_trans hfold_min (minD_le_right x y)
      · exact ih (minD x a) y (List.mem_cons_of_mem _ hy'')

theorem foldl_maxD_mem :
    ∀ (xs : List CalDate) (x : CalDate), xs.foldl maxD x ∈ x :: xs := by
  intro xs
  induction xs with
  | nil => intro x; simp
  | cons a t ih =>
    intro x
    rw [List.foldl_cons]
    rcases List.mem_cons.mp (ih (maxD x a)) with h1 | h1
    · rw [h1]
      rcases maxD_cases x a with h2 | h2 <;> rw [h2] <;> simp
    · exact List.mem_cons_of_mem _ (List.mem_cons_of_mem _ h1)

theorem foldl_maxD_ge :
    ∀ (xs : List CalDate) (x : CalDate), ∀ y ∈ x :: xs,
      y.le (xs.foldl maxD x) := by
  intro xs
  induction xs with
  | nil =>
    intro x y hy
    rw [List.mem_singleton] at hy
    subst hy
    exact CalDate.le_refl y
  | cons a t ih =>
    intro x y hy
    rw [List.foldl_cons]
    have hfold_max : (maxD x a).le (t.foldl maxD (maxD x a)) :=
      ih (maxD x a) (maxD x a) (List.mem_cons_self _ _)
    rcases List.mem_cons.mp hy with rfl | hy'
    · exact CalDate.le_trans (maxD_ge_left y a) hfold_max
    · rcases List.mem_cons.mp hy' with rfl | hy''
      · exact CalDate.le_trans (maxD_ge_right x y) hfold_max
      · exact ih (maxD x a) y (List.mem_cons_of_mem _ hy'')

theorem listMin_spec (l : List CalDate) (d : CalDate) (h : listMin l = some d) :
    d ∈ l ∧ ∀ y ∈ l, d.le y := by
  cases l with
  | nil => simp [listMin] at h
  | cons x xs =>
    have hd : xs.foldl minD x = d := by
      simpa [listMin] using h
    subst hd
    exact ⟨foldl_minD_mem xs x, foldl_minD_le xs x⟩

theorem listMax_spec (l : List CalDate) (d : CalDate) (h : listMax l = some d) :
    d ∈ l ∧ ∀ y ∈ l, y.le d := by
  cases l with
  | nil => simp [listMax] at h
  | cons x xs =>
    have hd : xs.foldl maxD x = d := by
      simpa [listMax] using h
    subst hd
    exact ⟨foldl_maxD_mem xs x, foldl_maxD_ge xs x⟩

/-- Claim C6: per work group the derived duration equals
`(end.year − start.year)*12 + (end.month − start.month)`, reduced by one
more month when `end.day < start.day`, floored at zero, where the start is
the earliest start date among the rows matching the start-milestone keyword
and the end is the latest end date among the rows matching the
end-milestone keyword; the result is missing when either milestone is
absent; start 2024-01-15 with end 2024-07-10 gives 5 and start 2024-01-10
with end 2024-07-15 gives 6. -/
theorem claim_C6_duration :
    (∀ (rows : List LinhaCrono) (s e : CalDate),
      minStart rows = some s → maxEnd rows = some e →
      (calculateWorkDuration rows =
        some (max 0 ((e.year - s.year) * 12 + (e.month - s.month) -
          (if e.day < s.day then 1 else 0))) ∧
       s ∈ startCandidates rows ∧ (∀ d ∈ startCandidates rows, s.le d) ∧
       e ∈ endCandidates rows ∧ (∀ d ∈ endCandidates rows, d.le e))) ∧
    (∀ rows : List LinhaCrono,
      minStart rows = none ∨ maxEnd rows = none →
      calculateWorkDuration rows = none) ∧
    calculateWorkDuration
      [⟨"Fundação", some ⟨2024, 1, 15⟩, none⟩,
       ⟨"Fim Físico", none, some ⟨2024, 7, 10⟩⟩] = some 5 ∧
    calculateWorkDuration
      [⟨"Fundação", some ⟨2024, 1, 10⟩, none⟩,
       ⟨"Fim Físico", none, some ⟨2024, 7, 15⟩⟩] = some 6 := by
  refine ⟨?_, ?_, ?_, ?_⟩
  · intro rows s e hs he
    have hmin := listMin_spec _ s hs
    have hmax := listMax_spec _ e he
    refine ⟨?_, hmin.1, hmin.2, hmax.1, hmax.2⟩
    have harith :
        (if e.day < s.day then
          (e.year - s.year) * 12 + (e.month - s.month) - 1
        else (e.year - s.year) * 12 + (e.month - s.month)) =
        (e.year - s.year) * 12 + (e.month - s.month) -
          (if e.day < s.day then 1 else 0) := by
      split <;> ring
    have hcalc : calculateWorkDuration rows =
        some (max 0 (if e.day < s.day then
          (e.year - s.year) * 12 + (e.month - s.month) - 1
        else (e.year - s.year) * 12 + (e.month - s.month))) := by
      unfold calculateWorkDuration
      rw [hs, he]
    rw [hcalc, harith]
  · intro rows h
    unfold calculateWorkDuration
    rcases h with h | h
    · rw [h]
    · rw [h]
      cases minStart rows <;> rfl
  · decide
  · decide

theorem claim_C6_witness :
    minStart [⟨"Fundação", some ⟨2024, 1, 15⟩, none⟩,
      ⟨"Fim Físico", none, some ⟨2024, 7, 10⟩⟩] = some ⟨2024, 1, 15⟩ ∧
    maxEnd [⟨"Fundação", some ⟨2024, 1, 15⟩, none⟩,
      ⟨"Fim Físico", none, some ⟨2024, 7, 10⟩⟩] = some ⟨2024, 7, 10⟩ ∧
    calculateWorkDuration [⟨"Fundação", some ⟨2024, 1, 15⟩, none⟩,
      ⟨"Fim Físico", none, some ⟨2024, 7, 10⟩⟩] =
      some (max 0 ((2024 - 2024) * 12 + (7 - 1) -
        (if (10 : Int) < 15 then 1 else 0))) :=
  ⟨by decide, by decide,
    (claim_C6_duration.1
      [⟨"Fundação", some ⟨2024, 1, 15⟩, none⟩,
       ⟨"Fim Físico", none, some ⟨2024, 7, 10⟩⟩]
      ⟨2024, 1, 15⟩ ⟨2024, 7, 10⟩ (by decide) (by decide)).1⟩

end MarcoCrono

namespace CurvasProd

/-- `MAX_FILES` of `curvas_prod.py` (line 13). -/
def MAX_FILES : ℕ := 300

/-- The loop of `ler_varios_excels_curvas` (`curvas_prod.py` lines 207-211):
read each file, keying every sheet as `name::sheet`.  `pd.read_excel` runs
with no `try`, so a raised read error propagates and aborts the whole call;
reading is abstracted as `read`, returning the sheets or an error. -/
def lerVariosAux {τ : Type} (read : String → Except String (List (String × τ))) :
    List String → List (String × τ) → Except String (List (String × τ))
  | [], acc => Except.ok acc
  | f :: fs, acc =>
    match read f with
    | Except.error e => Except.error e
    | Except.ok xls =>
      lerVariosAux read fs (acc ++ xls.map (fun p => (f ++ "::" ++ p.1, p.2)))

/-- `ler_varios_excels_curvas` (`curvas_prod.py` lines 204-212). -/
def lerVariosExcelsCurvas {τ : Type}
    (read : String → Except String (List (String × τ)))
    (files : List String) : Except String (List (String × τ)) :=
  lerVariosAux read (files.take MAX_FILES) []

/-- The oversize check of the curvas `render_tab` (`curvas_prod.py` lines
313-316): more than `MAX_FILES` uploaded files show an error and return
before any reading happens (`none`); otherwise the reader runs. -/
def renderTabCurvas {τ : Type}
    (read : String → Except String (List (String × τ)))
    (files : List String) : Option (Except String (List (String × τ))) :=
  if files.length > MAX_FILES then none
  else some (lerVariosExcelsCurvas read files)

end CurvasProd

namespace MarcoParede

/-- `MAX_FILES` of `marco_parede.py` (line 9). -/
def MAX_FILES : ℕ := 300

/-- The loop of `ler_todas_linhas_excels` (`marco_parede.py` lines 171-179):
a failing `pd.read_excel` is caught, recorded as a warning (modelled as the
file name paired with the error text behind `st.warning`) and skipped;
a successful read stores the sheets under the file name. -/
def lerTodasAux {τ : Type} (read : String → Except String (List (String × τ))) :
    List String →
    List (String × List (String × τ)) × List (String × String) →
    List (String × List (String × τ)) × List (String × String)
  | [], acc => acc
  | f :: fs, (todos, warns) =>
    match read f with
    | Except.error e => lerTodasAux read fs (todos, warns ++ [(f, e)])
    | Except.ok xls => lerTodasAux read fs (todos ++ [(f, xls)], warns)

/-- `ler_todas_linhas_excels` (`marco_parede.py` lines 168-180). -/
def lerTodasLinhasExcels {τ : Type}
    (read : String → Except String (List (String × τ)))
    (files : List String) :
    List (String × List (String × τ)) × List (String × String) :=
  lerTodasAux read (files.take MAX_FILES) ([], [])

theorem lerTodasAux_mono {τ : Type}
    (read : String → Except String (List (String × τ))) :
    ∀ (fs : List String) (todos : List (String × List (String × τ)))
      (warns : List (String × String)),
      (∀ x ∈ todos, x ∈ (lerTodasAux read fs (todos, warns)).1) ∧
      (∀ x ∈ warns, x ∈ (lerTodasAux read fs (todos, warns)).2) := by
  intro fs
  induction fs with
  | nil => intro todos warns; exact ⟨fun x hx => hx, fun x hx => hx⟩
  | cons f t ih =>
    intro todos warns
    cases hr : read f with
    | error e =>
      constructor
      · intro x hx
        simpa [lerTodasAux, hr] using (ih todos (warns ++ [(f, e)])).1 x hx
      · intro x hx
        simpa [lerTodasAux, hr] using
          (ih todos (warns ++ [(f, e)])).2 x (List.mem_append_left _ hx)
    | ok xls =>
      constructor
      · intro x hx
        simpa [lerTodasAux, hr] using
          (ih (todos ++ [(f, xls)]) warns).1 x (List.mem_append_left _ hx)
      · intro x hx
        simpa [lerTodasAux, hr] using (ih (todos ++ [(f, xls)]) warns).2 x hx

theorem lerTodasAux_ok_mem {τ : Type}
    (read : String → Except String (List (String × τ))) :
    ∀ (fs : List String) (todos : List (String × List (String × τ)))
      (warns : List (String × String)) (f : String) (xls : List (String × τ)),
      f ∈ fs → read f = Except.ok xls →
      (f, xls) ∈ (lerTodasAux read fs (todos, warns)).1 := by
  intro fs
  induction fs with
  | nil => intro _ _ _ _ hf _; simp at hf
  | cons g t ih =>
    intro todos warns f xls hf hread
    rcases List.mem_cons.mp hf with rfl | hf'
    · rw [show lerTodasAux read (f :: t) (todos, warns) =
          lerTodasAux read t (todos ++ [(f, xls)], warns) from by
        simp [lerTodasAux, hread]]
      exact (lerTodasAux_mono read t _ _).1 _
        (List.mem_append_right _ (List.mem_singleton.mpr rfl))
    · cases hr : read g with
      | error e =>
        rw [show lerTodasAux read (g :: t) (todos, warns) =
            lerTodasAux read t (todos, warns ++ [(g, e)]) from by
          simp [lerTodasAux, hr]]
        exact ih _ _ f xls hf' hread
      | ok y =>
        rw [show lerTodasAux read (g :: t) (todos, warns) =
            lerTodasAux read t (todos ++ [(g, y)], warns) from by
          simp [lerTodasAux, hr]]
        exact ih _ _ f xls hf' hread

theorem lerTodasAux_error_mem {τ : Type}
    (read : String → Except String (List (String × τ))) :
    ∀ (fs : List String) (todos : List (String × List (String × τ)))
      (warns : List (String × String)) (f : String) (e : String),
      f ∈ fs → read f = Except.error e →
      (f, e) ∈ (lerTodasAux read fs (todos, warns)).2 := by
  intro fs
  induction fs with
  | nil => intro _ _ _ _ hf _; simp at hf
  | cons g t ih =>
    intro todos warns f e hf hread
    rcases List.mem_cons.mp hf with rfl | hf'
    · rw [show lerTodasAux read (f :: t) (todos, warns) =
          lerTodasAux read t (todos, warns ++ [(f, e)]) from by
        simp [lerTodasAux, hread]]
      exact (lerTodasAux_mono read t _ _).2 _
        (List.mem_append_right _ (List.mem_singleton.mpr rfl))
    · cases hr : read g with
      | error e' =>
        rw [show lerTodasAux read (g :: t) (todos, warns) =
            lerTodasAux read t (todos, warns ++ [(g, e')]) from by
          simp [lerTodasAux, hr]]
        exact ih _ _ f e hf' hread
      | ok y =>
        rw [show lerTodasAux read (g :: t) (todos, warns) =
            lerTodasAux read t (todos ++ [(g, y)], warns) from by
          simp [lerTodasAux, hr]]
        exact ih _ _ f e hf' hread

end MarcoParede

/-- A concrete read function for the reader counterexamples: every file
reads fine except `"bad"`, which raises. -/
def readEx : String → Except String (List (String × Unit)) :=
  fun f => if f = "bad" then Except.error "boom"
           else Except.ok [("Planilha1", ())]

/-- Claim C7 counterexample: `ler_varios_excels_curvas` has no `try` around
`pd.read_excel`, so one failing source aborts the whole batch — on the input
set `["a", "bad", "c"]` it returns an error, not a mapping, and the healthy
source `"c"` is lost. -/
theorem claim_C7_counterexample :
    CurvasProd.lerVariosExcelsCurvas readEx ["a", "bad", "c"] =
      Except.error "boom" ∧
    (CurvasProd.lerVariosExcelsCurvas readEx ["a", "bad", "c"]).isOk = false := by
  constructor <;> rfl

/-- Claim C7 (amended): `ler_todas_linhas_excels` in `marco_parede.py`
isolates per-source read failures — a failing source yields a warning and no
contribution while every other source within the file limit is still read
and present — but `ler_varios_excels_curvas` in `curvas_prod.py` propagates
the failure and aborts the batch. -/
theorem claim_C7_amended :
    ∀ (τ : Type) (read : String → Except String (List (String × τ)))
      (files : List String) (f : String),
      f ∈ files.take MarcoParede.MAX_FILES →
      (∀ xls, read f = Except.ok xls →
        (f, xls) ∈ (MarcoParede.lerTodasLinhasExcels read files).1) ∧
      (∀ e, read f = Except.error e →
        (f, e) ∈ (MarcoParede.lerTodasLinhasExcels read files).2) := by
  intro τ read files f hf
  constructor
  · intro xls hread
    exact MarcoParede.lerTodasAux_ok_mem read _ [] [] f xls hf hread
  · intro e hread
    exact MarcoParede.lerTodasAux_error_mem read _ [] [] f e hf hread

theorem claim_C7_witness :
    ("a" ∈ (["a", "bad", "c"]).take MarcoParede.MAX_FILES) ∧
    ("a", [("Planilha1", ())]) ∈
      (MarcoParede.lerTodasLinhasExcels readEx ["a", "bad", "c"]).1 ∧
    ("bad", "boom") ∈
      (MarcoParede.lerTodasLinhasExcels readEx ["a", "bad", "c"]).2 :=
  ⟨by decide,
    (claim_C7_amended Unit readEx ["a", "bad", "c"] "a" (by decide)).1
      [("Planilha1", ())] rfl,
    (claim_C7_amended Unit readEx ["a", "bad", "c"] "bad" (by decide)).2
      "boom" rfl⟩

namespace Pp

/-- `MAX_FILES` of `pp.py` (line 13). -/
def MAX_FILES : ℕ := 1000

/-- `ler_varios_excels_pp` (`pp.py` lines 109-138) at the level the claims
need: tasks are submitted for `files[:MAX_FILES]` only (line 117), results
are gathered in submission order, and a failing task is skipped by the
`try/except` around `future.result()` (lines 122-127).  `read` abstracts one
`_read_excel_with_cache` task: `none` models a raised exception. -/
def lerVariosExcelsPp {φ τ : Type} (read : φ → Option τ) (files : List φ) :
    List τ :=
  (files.take MAX_FILES).foldl
    (fun dfs f =>
      match read f with
      | some entry => dfs ++ [entry]
      | none => dfs) []

/-- `_read_excel_with_cache` (`pp.py` lines 89-106) with its state made
explicit: on a readable cache entry for `file_name` the function returns
`{file_name::Planilha1: cached}` and never looks at the bytes; on a miss it
parses the bytes, stores the first sheet in the cache under the file name,
and returns the first sheet under its real name.  The silently-ignored
parquet write failure is modelled as a write that succeeds; `read_excel`
always yields at least one sheet, so the `[]` case is unreachable. -/
def readExcelWithCache {β τ : Type} (readExcel : β → List (String × τ))
    (cache : String → Option τ) (fileBytes : β) (fileName : String) :
    List (String × τ) × (String → Option τ) :=
  match cache fileName with
  | some df => ([(fileName ++ "::Planilha1", df)], cache)
  | none =>
    match readExcel fileBytes with
    | [] => ([], cache)
    | (sheet, df) :: _ =>
      ([(fileName ++ "::" ++ sheet, df)],
        fun n => if n = fileName then some df else cache n)

end Pp

theorem foldl_snoc {φ : Type} :
    ∀ (l acc : List φ), l.foldl (fun dfs f => dfs ++ [f]) acc = acc ++ l := by
  intro l
  induction l with
  | nil => intro acc; simp
  | cons a t ih =>
    intro acc
    rw [List.foldl_cons, ih]
    simp

theorem lerVariosExcelsPp_all_ok {φ : Type} (files : List φ) :
    Pp.lerVariosExcelsPp (fun f => some f) files = files.take Pp.MAX_FILES := by
  show (files.take Pp.MAX_FILES).foldl (fun dfs f => dfs ++ [f]) [] = _
  rw [foldl_snoc]
  rfl

namespace MarcoCrono

/-- `MAX_FILES` of `marco_cronograma.py` (line 14). -/
def MAX_FILES : ℕ := 1000

/-- `processar_arquivos` (`marco_cronograma.py` lines 135-182) at the level
the ordering claim needs: the files are truncated to `MAX_FILES` (lines
137-138), one task per file produces that file's per-sheet tables
(`_process_excel_file`), `as_completed` hands results back in completion
order (lines 150-151) — modelled by the index list `order` — and the
consolidation loop concatenates every sheet of every result in that order
with no sort afterwards (lines 163-169). -/
def processarArquivos {φ ρ : Type} (process : φ → List (List ρ))
    (files : List φ) (order : List ℕ) : List ρ :=
  let fs := files.take MAX_FILES
  let results := order.filterMap (fun i => (fs.get? i).map process)
  results.flatten.flatten

end MarcoCrono

namespace MarcoModulo

/-- `MAX_FILES` of `marco_modulo.py` (line 13). -/
def MAX_FILES : ℕ := 1000

/-- `processar_arquivos` (`marco_modulo.py` lines 110-158) at the level the
batch-limit claim needs: the files are truncated to `MAX_FILES` (lines
112, 121), `_process_single_file` produces one table per file (abstracted
as `process`), results are gathered in `as_completed` order (modelled by
`order`, lines 139-142), concatenated, and the rows with an empty `Módulo`
are dropped (`keep`, line 149). -/
def processarArquivos {φ ρ : Type} (process : φ → List ρ) (keep : ρ → Bool)
    (files : List φ) (order : List ℕ) : List ρ :=
  let fs := files.take MAX_FILES
  let resultados := order.filterMap (fun i => (fs.get? i).map process)
  resultados.flatten.filter keep

end MarcoModulo

/-- Claim C8 counterexample: `ler_varios_excels_pp` is handed 1001 readable
files and silently processes exactly the first 1000 of them — it returns a
mapping (no rejection of the batch) missing the 1001st file. -/
theorem claim_C8_counterexample :
    Pp.lerVariosExcelsPp (fun f : ℕ => some f) (List.range 1001) =
      List.range 1000 ∧
    List.range 1000 ≠ List.range 1001 := by
  constructor
  · rw [lerVariosExcelsPp_all_ok, List.take_range]
    norm_num [Pp.MAX_FILES]
  · intro h
    have := congrArg List.length h
    simp at this

/-- Claim C8 (amended): only the curvas report rejects an oversized batch —
its `render_tab` errors out and never reads when more than `MAX_FILES`
(300) files are submitted; the PP reader and the marco_cronograma,
marco_modulo and marco_parede pipelines instead silently truncate the input
set to their first `MAX_FILES` files (1000, 1000, 1000 and 300
respectively), returning a normal result with no rejection signal. -/
theorem claim_C8_amended :
    (∀ (τ : Type) (read : String → Except String (List (String × τ)))
      (files : List String),
      CurvasProd.MAX_FILES < files.length →
      CurvasProd.renderTabCurvas read files = none) ∧
    (∀ (φ τ : Type) (read : φ → Option τ) (files : List φ),
      Pp.lerVariosExcelsPp read files =
        Pp.lerVariosExcelsPp read (files.take Pp.MAX_FILES)) ∧
    (∀ (φ ρ : Type) (process : φ → List (List ρ)) (files : List φ)
      (order : List ℕ),
      MarcoCrono.processarArquivos process files order =
        MarcoCrono.processarArquivos process
          (files.take MarcoCrono.MAX_FILES) order) ∧
    (∀ (φ ρ : Type) (process : φ → List ρ) (keep : ρ → Bool) (files : List φ)
      (order : List ℕ),
      MarcoModulo.processarArquivos process keep files order =
        MarcoModulo.processarArquivos process keep
          (files.take MarcoModulo.MAX_FILES) order) ∧
    (∀ (τ : Type) (read : String → Except String (List (String × τ)))
      (files : List String),
      MarcoParede.lerTodasLinhasExcels read files =
        MarcoParede.lerTodasLinhasExcels read
          (files.take MarcoParede.MAX_FILES)) := by
  refine ⟨?_, ?_, ?_, ?_, ?_⟩
  · intro τ read files h
    unfold CurvasProd.renderTabCurvas
    rw [if_pos h]
  · intro φ τ read files
    unfold Pp.lerVariosExcelsPp
    rw [List.take_take, min_self]
  · intro φ ρ process files order
    unfold MarcoCrono.processarArquivos
    rw [List.take_take, min_self]
  · intro φ ρ process keep files order
    unfold MarcoModulo.processarArquivos
    rw [List.take_take, min_self]
  · intro τ read files
    unfold MarcoParede.lerTodasLinhasExcels
    rw [List.take_take, min_self]

theorem claim_C8_witness :
    (CurvasProd.MAX_FILES < (List.replicate 301 "f").length) ∧
    CurvasProd.renderTabCurvas
      (fun _ => Except.ok ([] : List (String × Unit)))
      (List.replicate 301 "f") = none :=
  ⟨by rw [List.length_replicate]; norm_num [CurvasProd.MAX_FILES],
    claim_C8_amended.1 Unit (fun _ => Except.ok [])
      (List.replicate 301 "f")
      (by rw [List.length_replicate]; norm_num [CurvasProd.MAX_FILES])⟩


/-- Claim C9 counterexample: two completion orders of the same two input
files produce consolidated tables with different row orders —
`processar_arquivos` appends results in `as_completed` order and never
sorts. -/
theorem claim_C9_counterexample :
    MarcoCrono.processarArquivos (fun f : ℕ => [[f]]) [10, 20] [0, 1] =
      [10, 20] ∧
    MarcoCrono.processarArquivos (fun f : ℕ => [[f]]) [10, 20] [1, 0] =
      [20, 10] ∧
    ([0, 1] : List ℕ).Perm [1, 0] ∧
    MarcoCrono.processarArquivos (fun f : ℕ => [[f]]) [10, 20] [0, 1] ≠
      MarcoCrono.processarArquivos (fun f : ℕ => [[f]]) [10, 20] [1, 0] := by
  refine ⟨by decide, by decide, by decide, by decide⟩

/-- Claim C9 (amended): in `marco_cronograma.py` the consolidated table
contains the same rows (as a multiset) for any two completion orders that
are permutations of each other, but the row order itself follows the worker
completion order — the output is concatenated in `as_completed` order with
no final sort, so completion order does leak into row order. -/
theorem claim_C9_amended :
    ∀ (φ ρ : Type) (process : φ → List (List ρ)) (files : List φ)
      (o₁ o₂ : List ℕ), o₁.Perm o₂ →
      (MarcoCrono.processarArquivos process files o₁).Perm
        (MarcoCrono.processarArquivos process files o₂) := by
  intro φ ρ process files o₁ o₂ h
  unfold MarcoCrono.processarArquivos
  exact ((h.filterMap _).flatten).flatten

theorem claim_C9_witness :
    (([0, 1] : List ℕ).Perm [1, 0]) ∧
    (MarcoCrono.processarArquivos (fun f : ℕ => [[f]]) [10, 20] [0, 1]).Perm
      (MarcoCrono.processarArquivos (fun f : ℕ => [[f]]) [10, 20] [1, 0]) :=
  ⟨by decide,
    claim_C9_amended ℕ ℕ (fun f => [[f]]) [10, 20] [0, 1] [1, 0] (by decide)⟩

/-- Claim C10: whenever a readable cache entry exists for a file name,
`_read_excel_with_cache` returns `{file_name::Planilha1: cached}` no matter
which bytes are passed in — two distinct uploads sharing a name get the
first-cached content — and on a cache hit the sheet key is always
`Planilha1`, even when the sheet cached on the first (uncached) read had a
different name. -/
theorem claim_C10_cache (β τ : Type) (readExcel : β → List (String × τ))
    (cache : String → Option τ) (b₁ b₂ : β) (name : String) (df : τ)
    (h : cache name = some df) :
    (Pp.readExcelWithCache readExcel cache b₁ name).1 =
      [(name ++ "::Planilha1", df)] ∧
    (Pp.readExcelWithCache readExcel cache b₁ name).1 =
      (Pp.readExcelWithCache readExcel cache b₂ name).1 ∧
    (∀ (c₀ : String → Option τ) (sheet : String) (rest : List (String × τ)),
      c₀ name = none → readExcel b₁ = (sheet, df) :: rest →
      (Pp.readExcelWithCache readExcel
        (Pp.readExcelWithCache readExcel c₀ b₁ name).2 b₂ name).1 =
        [(name ++ "::Planilha1", df)]) := by
  have hit : ∀ (c : String → Option τ) (b : β), c name = some df →
      (Pp.readExcelWithCache readExcel c b name).1 =
        [(name ++ "::Planilha1", df)] := by
    intro c b hcn
    unfold Pp.readExcelWithCache
    rw [hcn]
  refine ⟨hit cache b₁ h, by rw [hit cache b₁ h, hit cache b₂ h], ?_⟩
  intro c₀ sheet rest hc hread
  have e2 : (Pp.readExcelWithCache readExcel c₀ b₁ name).2 =
      (fun n => if n = name then some df else c₀ n) := by
    unfold Pp.readExcelWithCache
    rw [hc, hread]
  have e3 : (Pp.readExcelWithCache readExcel c₀ b₁ name).2 name = some df := by
    rw [e2]
    simp
  exact hit _ b₂ e3

theorem claim_C10_witness :
    ((fun n => if n = "arq.xlsx" then some (7 : ℕ) else none) "arq.xlsx" =
      some 7) ∧
    (Pp.readExcelWithCache (fun _ : ℕ => [("S1", (99 : ℕ))])
      (fun n => if n = "arq.xlsx" then some 7 else none) 1 "arq.xlsx").1 =
      [("arq.xlsx" ++ "::Planilha1", 7)] :=
  ⟨by decide,
    (claim_C10_cache ℕ ℕ (fun _ => [("S1", 99)])
      (fun n => if n = "arq.xlsx" then some 7 else none) 1 2 "arq.xlsx" 7
      (by decide)).1⟩
